import Mathlib

/-!
Verification of the z-ai-acp session bridge against its design document.

The definitions below are shallow embeddings of the TypeScript sources:
`src/prompt-analyzer.ts`, `src/acp-agent.ts` and `src/utils.js`
(managed-settings handling).  JavaScript strings become `String`,
JavaScript numbers used as integer scores become `Int`/`Nat`, the mutable
`process.env` and the tool-use correlation cache become explicit
finite maps (`String → Option _`), and thrown protocol errors become an
`Except`-style result type.
-/

namespace ZAcp

set_option maxRecDepth 16384

/-! ## String helpers mirroring the JavaScript primitives used by the code -/

/-- The JavaScript regex class `\\s` (used by `split(/\\s+/)`), by codepoint:
space, tab, LF, VT, FF, CR, NBSP, Ogham space, the U+2000 block, line and
paragraph separators, narrow NBSP, math space, ideographic space, BOM. -/
def jsIsWs (c : Char) : Bool :=
  let n := c.toNat
  n == 0x20 || n == 0x09 || n == 0x0a || n == 0x0b || n == 0x0c || n == 0x0d ||
  n == 0xa0 || n == 0x1680 || (0x2000 <= n && n <= 0x200a) ||
  n == 0x2028 || n == 0x2029 || n == 0x202f || n == 0x205f || n == 0x3000 || n == 0xfeff

/-- Worker for `jsSplitWhitespace`.  The accumulator is `some cur` while a
field is being read and `none` while inside a whitespace separator run,
matching the piece structure produced by JavaScript `String.split(/\s+/)`
(which keeps empty leading/trailing pieces). -/
def splitWsAux : Option (List Char) → List Char → List (List Char)
  | acc, [] =>
    match acc with
    | some cur => [cur.reverse]
    | none => [[]]
  | acc, c :: rest =>
    if jsIsWs c then
      match acc with
      | some cur => cur.reverse :: splitWsAux none rest
      | none => splitWsAux none rest
    else
      match acc with
      | some cur => splitWsAux (some (c :: cur)) rest
      | none => splitWsAux (some [c]) rest

/-- JavaScript `s.split(/\s+/)`. -/
def jsSplitWhitespace (s : String) : List String :=
  (splitWsAux (some []) s.toList).map fun l => String.mk l

/-- ASCII lowercasing of one character (the keyword tables are ASCII or
case-free CJK text, so this models `toLowerCase` on every input the
analyzer distinguishes). -/
def jsToLowerChar (c : Char) : Char :=
  if 'A' ≤ c ∧ c ≤ 'Z' then Char.ofNat (c.toNat + 32) else c

/-- JavaScript `s.toLowerCase()`. -/
def jsToLower (s : String) : String := String.mk (s.toList.map jsToLowerChar)

/-- Worker for `jsSplitOnNewline`. -/
def splitOnCharAux (sep : Char) : List Char → List Char → List (List Char)
  | cur, [] => [cur.reverse]
  | cur, c :: rest =>
    if c == sep then cur.reverse :: splitOnCharAux sep [] rest
    else splitOnCharAux sep (c :: cur) rest

/-- JavaScript `s.split("\n")`. -/
def jsSplitOnNewline (s : String) : List String :=
  (splitOnCharAux '\n' [] s.toList).map String.mk

/-- JavaScript `s.trim()`: strip leading and trailing whitespace. -/
def jsTrim (s : String) : String :=
  String.mk (((s.toList.dropWhile jsIsWs).reverse.dropWhile jsIsWs).reverse)

/-- Is `needle` a contiguous sublist of the second argument? -/
def infixAux (needle : List Char) : List Char → Bool
  | [] => needle.isEmpty
  | c :: rest => needle.isPrefixOf (c :: rest) || infixAux needle rest

/-- JavaScript `s.includes(pat)`. -/
def strIncludes (s pat : String) : Bool := infixAux pat.toList s.toList

/-! ## Keyword tables from `src/prompt-analyzer.ts` -/

def COMPLEX_KEYWORDS : List String :=
  ["refactor", "architecture", "design", "implement", "build", "create system",
   "optimize", "performance", "security", "algorithm",
   "複雑", "アーキテクチャ", "리팩토링", "아키텍처", "설계", "구현"]

def SIMPLE_KEYWORDS : List String :=
  ["what is", "how to", "explain", "show me", "list", "find", "search",
   "read", "view", "display", "무엇", "어떻게", "설명", "보여"]

inductive TaskType
  | question
  | explanation
  | code_generation
  | refactoring
  | debugging
  | architecture
  | review
deriving DecidableEq, Repr

def TASK_TYPE_KEYWORDS : TaskType → List String
  | .question => ["what", "why", "how", "when", "where", "무엇", "왜", "어떻게"]
  | .explanation => ["explain", "describe", "tell me about", "설명", "알려"]
  | .code_generation => ["create", "generate", "write", "implement", "add", "생성", "작성", "추가"]
  | .refactoring => ["refactor", "improve", "optimize", "clean up", "리팩토링", "개선", "최적화"]
  | .debugging => ["fix", "bug", "error", "debug", "issue", "problem", "수정", "버그", "에러"]
  | .architecture => ["architecture", "design", "structure", "pattern", "아키텍처", "설계", "구조"]
  | .review => ["review", "check", "analyze", "audit", "검토", "분석", "확인"]

/-- The fixed object-literal enumeration order walked by
`Object.entries(TASK_TYPE_KEYWORDS)`. -/
def taskTypeOrder : List TaskType :=
  [.question, .explanation, .code_generation, .refactoring, .debugging, .architecture, .review]

/-- Keyword-hit count of one category against the lowercased prompt. -/
def catScore (lowerText : String) (c : TaskType) : Nat :=
  ((TASK_TYPE_KEYWORDS c).filter (fun kw => strIncludes lowerText kw)).length

/-- The task-type selection loop: keep the current best, replace it only on a
strictly greater score (`score > maxScore`). -/
def pickTaskAux (f : TaskType → Nat) : List TaskType → TaskType → Nat → TaskType
  | [], best, _ => best
  | c :: rest, best, m => if f c > m then pickTaskAux f rest c (f c) else pickTaskAux f rest best m

/-- The task-type loop of `analyzePrompt`, starting from category
question with a zero best score. -/
def pickTask (f : TaskType → Nat) : TaskType := pickTaskAux f taskTypeOrder .question 0

/-! ## Code-block and file-path counting regexes -/

/-- The backquote character U+0060. -/
def backquoteChar : Char := '\x60'

/-- Skip forward to just past the next occurrence of three consecutive
backquote characters; `none` when there is none.  The first argument is
fuel (call with the list length). -/
def findTripleAux : Nat → List Char → Option (List Char)
  | 0, _ => none
  | _ + 1, [] => none
  | fuel + 1, c1 :: rest =>
    if c1 = backquoteChar then
      match rest with
      | c2 :: c3 :: rest2 =>
        if c2 = backquoteChar ∧ c3 = backquoteChar then some rest2
        else findTripleAux fuel rest
      | _ => findTripleAux fuel rest
    else findTripleAux fuel rest

/-- Number of matches of the global lazy regex used for fenced code blocks:
each match is an opening triple backtick paired with the next closing
triple backtick. -/
def countCodeBlocksAux : Nat → List Char → Nat
  | 0, _ => 0
  | fuel + 1, cs =>
    match findTripleAux cs.length cs with
    | none => 0
    | some afterOpen =>
      match findTripleAux afterOpen.length afterOpen with
      | none => 0
      | some afterClose => 1 + countCodeBlocksAux fuel afterClose

def countCodeBlocks (t : String) : Nat := countCodeBlocksAux t.toList.length t.toList

/-- JavaScript `\w`. -/
def isWordCharJs (c : Char) : Bool := c.isAlpha || c.isDigit || c == '_'

/-- A character allowed inside a path segment (`[\w-]`). -/
def isSegChar (c : Char) : Bool := isWordCharJs c || c == '-'

/-- Parse the greedy `(?:\/[\w-]+)+` group at the head of the input,
returning the remainder after as many segments as possible. -/
def parseSegs : Nat → List Char → Option (List Char)
  | 0, _ => none
  | fuel + 1, '/' :: rest =>
    let seg := rest.takeWhile isSegChar
    if seg.isEmpty then none
    else
      let rest2 := rest.dropWhile isSegChar
      match parseSegs fuel rest2 with
      | some r => some r
      | none => some rest2
  | _ + 1, _ => none

/-- Match the file-path regex at the head of the input: one or more
`/segment` groups, then a literal dot, then one or more word characters.
Returns the remainder after the match. -/
def matchFilePathAt (cs : List Char) : Option (List Char) :=
  match parseSegs (cs.length + 1) cs with
  | none => none
  | some rest =>
    match rest with
    | '.' :: rest2 =>
      let w := rest2.takeWhile isWordCharJs
      if w.isEmpty then none else some (rest2.dropWhile isWordCharJs)
    | _ => none

/-- Count the global matches of the file-path regex, scanning left to right
and resuming after each match. -/
def countFilePathsAux : Nat → List Char → Nat
  | 0, _ => 0
  | _ + 1, [] => 0
  | fuel + 1, c :: rest =>
    match matchFilePathAt (c :: rest) with
    | some r => 1 + countFilePathsAux fuel r
    | none => countFilePathsAux fuel rest

def countFilePaths (t : String) : Nat := countFilePathsAux t.toList.length t.toList

/-! ## `analyzePrompt` -/

inductive TaskComplexity
  | simple
  | medium
  | complex
deriving DecidableEq, Repr

def wordCountOf (t : String) : Nat := (jsSplitWhitespace t).length

def lineCountOf (t : String) : Nat := (jsSplitOnNewline t).length

def complexKeywordCountOf (t : String) : Nat :=
  (COMPLEX_KEYWORDS.filter (fun kw => strIncludes (jsToLower t) kw)).length

def simpleKeywordCountOf (t : String) : Nat :=
  (SIMPLE_KEYWORDS.filter (fun kw => strIncludes (jsToLower t) kw)).length

def taskTypeOf (t : String) : TaskType := pickTask (catScore (jsToLower t))

/-- The running `complexityScore` after all seven contributions.  JavaScript
numbers can go negative here (simple keywords subtract), hence `Int`. -/
def complexityScoreOf (t : String) : Int :=
  (if wordCountOf t > 200 then (3 : Int) else if wordCountOf t > 100 then 2
   else if wordCountOf t > 50 then 1 else 0)
  + (if lineCountOf t > 50 then (2 : Int) else if lineCountOf t > 20 then 1 else 0)
  + ((min (countCodeBlocks t * 2) 6 : Nat) : Int)
  + ((min (countFilePaths t) 3 : Nat) : Int)
  + (complexKeywordCountOf t : Int) * 2
  - (simpleKeywordCountOf t : Int)
  + (if taskTypeOf t = .architecture ∨ taskTypeOf t = .refactoring ∨
        taskTypeOf t = .code_generation then (3 : Int)
     else if taskTypeOf t = .debugging ∨ taskTypeOf t = .review then 2 else 0)

def complexityOf (t : String) : TaskComplexity :=
  if complexityScoreOf t ≥ 8 then .complex
  else if complexityScoreOf t ≥ 3 then .medium
  else .simple

def taskTypeName : TaskType → String
  | .question => "question"
  | .explanation => "explanation"
  | .code_generation => "code_generation"
  | .refactoring => "refactoring"
  | .debugging => "debugging"
  | .architecture => "architecture"
  | .review => "review"

def complexityName : TaskComplexity → String
  | .simple => "simple"
  | .medium => "medium"
  | .complex => "complex"

structure PromptAnalysis where
  complexity : TaskComplexity
  taskType : TaskType
  suggestedModel : String
  suggestedThinkingEffort : String
  suggestedMaxThinkingTokens : Nat
  reasoning : String
deriving DecidableEq, Repr

def analyzePrompt (promptText : String) : PromptAnalysis :=
  let taskType := taskTypeOf promptText
  let complexity := complexityOf promptText
  let suggestedModel :=
    if complexity = .complex then "glm-4.7"
    else if complexity = .medium then "glm-4.7"
    else if taskType = .question ∨ taskType = .explanation then "glm-4.5-air"
    else "glm-4.7"
  let suggestedThinkingEffort :=
    if complexity = .complex then "high" else if complexity = .medium then "medium" else "low"
  let suggestedMaxThinkingTokens :=
    if complexity = .complex then 20000 else if complexity = .medium then 15000 else 10000
  { complexity := complexity
    taskType := taskType
    suggestedModel := suggestedModel
    suggestedThinkingEffort := suggestedThinkingEffort
    suggestedMaxThinkingTokens := suggestedMaxThinkingTokens
    reasoning :=
      "Complexity: " ++ complexityName complexity ++ " (score: " ++
      toString (complexityScoreOf promptText) ++ "), Task: " ++ taskTypeName taskType ++
      ", Words: " ++ toString (wordCountOf promptText) ++ ", Lines: " ++
      toString (lineCountOf promptText) ++ ", Code blocks: " ++
      toString (countCodeBlocks promptText) }

/-! ## Model-name mapping (`mapModelToGlm` / `getClaudeModelFromGlm`) -/

def mapModelToGlmKeys : List String :=
  ["claude-4.5-sonnet-20250114", "claude-4-haiku-20250114", "claude-4-opus-20250114",
   "claude-3-5-sonnet-20241022", "claude-3-5-haiku-20241022", "claude-3-opus-20240229"]

/-- Property names an object literal inherits from Object.prototype and
that string indexing therefore reaches; every one of their values (a
built-in function, or Object.prototype itself for the proto accessor) is
truthy. -/
def objectPrototypeKeys : List String :=
  ["constructor", "hasOwnProperty", "isPrototypeOf", "propertyIsEnumerable",
   "toLocaleString", "toString", "valueOf", "__proto__",
   "__defineGetter__", "__defineSetter__", "__lookupGetter__", "__lookupSetter__"]

/-- A JavaScript value produced by the table lookup: either a plain string
(an own property of the literal, or the fall-through input), or a truthy
non-string value inherited from Object.prototype, kept opaque and tagged
with the property name that reached it. -/
inductive JsLookupResult
  | str (s : String)
  | inherited (name : String)
deriving DecidableEq, Repr

/-- The JavaScript expression modelMapping[claudeModel] || claudeModel:
an own key yields its mapped string; a name inherited from
Object.prototype yields that (truthy) inherited member, so the input is
NOT returned for such names; any other name falls through to the input. -/
def mapModelToGlm (claudeModel : String) : JsLookupResult :=
  if claudeModel == "claude-4.5-sonnet-20250114" then .str "glm-4.7"
  else if claudeModel == "claude-4-haiku-20250114" then .str "glm-4.5-air"
  else if claudeModel == "claude-4-opus-20250114" then .str "glm-4.7"
  else if claudeModel == "claude-3-5-sonnet-20241022" then .str "glm-4.7"
  else if claudeModel == "claude-3-5-haiku-20241022" then .str "glm-4.5-air"
  else if claudeModel == "claude-3-opus-20240229" then .str "glm-4.7"
  else if claudeModel ∈ objectPrototypeKeys then .inherited claudeModel
  else .str claudeModel

def getClaudeModelFromGlm (glmModel : String) : String :=
  if glmModel == "glm-4.5-air" then "claude-4-haiku-20250114"
  else "claude-4-opus-20250114"

/-! ## `newSession` credential check (`src/acp-agent.ts`) -/

/-- The protocol errors thrown by the agent: `RequestError.authRequired()`
is the distinct authorization error, `RequestError.internalError` the
generic failure. -/
inductive AcpError
  | authRequired
  | internalError (msg : String)
deriving DecidableEq, Repr

/-- The parts of the ambient world read by `newSession` before it decides
whether to throw: the `ANTHROPIC_AUTH_TOKEN` environment variable and the
existence of `~/.claude.json.backup` and `~/.claude.json`. -/
structure NewSessionWorld where
  authToken : Option String
  backupFileExists : Bool
  configFileExists : Bool

inductive PermissionMode
  | default
  | acceptEdits
  | plan
  | dontAsk
  | bypassPermissions
deriving DecidableEq, Repr

/-- The session record stored in the registry on success. -/
structure SessionCreated where
  sessionId : String
  permissionMode : PermissionMode
  cancelled : Bool
  isAuthRequired : Bool
deriving DecidableEq, Repr

/-- The `isAuthRequired` computation at the top of `newSession`: token
missing or blank, or the credential-backup file present without the main
config file. -/
def newSessionAuthCheck (w : NewSessionWorld) : Bool :=
  (match w.authToken with
   | none => true
   | some t => t == "" || jsTrim t == "")
  || (w.backupFileExists && !w.configFileExists)

def newSession (w : NewSessionWorld) (sessionId : String) : Except AcpError SessionCreated :=
  if newSessionAuthCheck w then .error .authRequired
  else .ok { sessionId := sessionId
             permissionMode := .default
             cancelled := false
             isAuthRequired := false }

/-! ## `setSessionModel` thinking-budget policy -/

def isOpusModel (modelId : String) : Bool :=
  strIncludes (jsToLower modelId) "opus" || strIncludes (jsToLower modelId) "glm-4.7" ||
  strIncludes (jsToLower modelId) "glm-4.6"

/-- Effect of one `setSessionModel` call on the reasoning-token budget
(`setMaxThinkingTokens`).  `envMaxThinkingTokens` is the parsed
`MAX_THINKING_TOKENS` environment variable; when the session holds no
query the call is a no-op. -/
def setSessionModelBudget (hasQuery : Bool) (envMaxThinkingTokens : Option Nat)
    (modelId : String) (budget : Option Nat) : Option Nat :=
  if hasQuery then
    if isOpusModel modelId then some (envMaxThinkingTokens.getD 15000) else none
  else budget

/-! ## `canUseTool` permission mediation -/

/-- Outcome of the host `requestPermission` round trip:
`response.outcome?.outcome === "selected"` with an option id, or anything
else (cancelled / dismissed). -/
inductive PermOutcome
  | selected (optionId : String)
  | cancelled
deriving DecidableEq, Repr

inductive CanUseDecision
  | allow
  | deny (message : String) (interrupt : Bool)
deriving DecidableEq, Repr

/-- Result of one `canUseTool` invocation: whether a host permission
request was issued, the decision returned to the engine, and the session
permission mode afterwards. -/
structure CanUseResult where
  askedHost : Bool
  decision : CanUseDecision
  newMode : PermissionMode
deriving DecidableEq, Repr

def canUseTool (editToolNames : List String) (sessionExists : Bool) (mode : PermissionMode)
    (toolName : String) (hostResponse : PermOutcome) : CanUseResult :=
  if ¬sessionExists then ⟨false, .deny "Session not found" true, mode⟩
  else if toolName = "ExitPlanMode" then
    match hostResponse with
    | .selected oid =>
      if oid = "default" then ⟨true, .allow, .default⟩
      else if oid = "acceptEdits" then ⟨true, .allow, .acceptEdits⟩
      else ⟨true, .deny "User rejected request to exit plan mode." true, mode⟩
    | .cancelled => ⟨true, .deny "User rejected request to exit plan mode." true, mode⟩
  else if mode = .bypassPermissions ∨ (mode = .acceptEdits ∧ toolName ∈ editToolNames) then
    ⟨false, .allow, mode⟩
  else
    match hostResponse with
    | .selected oid =>
      if oid = "allow" ∨ oid = "allow_always" then ⟨true, .allow, mode⟩
      else ⟨true, .deny "User refused permission to run tool" true, mode⟩
    | .cancelled => ⟨true, .deny "User refused permission to run tool" true, mode⟩

/-! ## Event translation (`toAcpNotifications`) -/

/-- A todo entry of the TodoWrite tool input (`ClaudePlanEntry` in
`tools.ts`). -/
structure ClaudePlanEntry where
  content : String
  status : String
deriving DecidableEq, Repr

structure PlanEntry where
  text : String
  status : String
deriving DecidableEq, Repr

/-- Modelled from the spec: `planEntries` lives in `tools.ts`, which is not
among the provided sources.  Per the spec the TodoWrite input is
"transformed into an ordered plan (list of {text, status})". -/
def planEntries (todos : List ClaudePlanEntry) : List PlanEntry :=
  todos.map fun e => ⟨e.content, e.status⟩

/-- Tool input: the optional `todos` array inspected for TodoWrite plus the
remaining raw JSON payload, kept opaque. -/
structure ToolInput where
  todos : Option (List ClaudePlanEntry)
  raw : String
deriving DecidableEq, Repr

/-- Modelled from the spec: `toolInfoFromToolUse` lives in `tools.ts`,
which is not among the provided sources.  Per the spec the tool-call
notification carries "a derived human-readable title"; its exact
derivation is opaque here. -/
def toolInfoTitle (name : String) (_input : ToolInput) : String := name

inductive ToolUseKind
  | tool_use
  | server_tool_use
  | mcp_tool_use
deriving DecidableEq, Repr

structure ToolUseRec where
  kind : ToolUseKind
  id : String
  name : String
  input : ToolInput
deriving DecidableEq, Repr

/-- The Correlation Cache `toolUseCache`: identifier to descriptor. -/
def ToolUseCache := String → Option ToolUseRec

def emptyCache : ToolUseCache := fun _ => none

def cacheInsert (c : ToolUseCache) (id : String) (r : ToolUseRec) : ToolUseCache :=
  fun k => if k == id then some r else c k

inductive Role
  | assistant
  | user
deriving DecidableEq, Repr

inductive ImageSource
  | base64 (data : String) (mediaType : String)
  | url (url : String)
deriving DecidableEq, Repr

inductive ContentPayload
  | text (text : String)
  | image (data : String) (mimeType : String) (uri : Option String)
deriving DecidableEq, Repr

/-- The eight tool-result content-block variants that share the
`tool_result` case of the translator switch. -/
inductive ToolResultKind
  | tool_result
  | tool_search_tool_result
  | web_fetch_tool_result
  | web_search_tool_result
  | code_execution_tool_result
  | bash_code_execution_tool_result
  | text_editor_code_execution_tool_result
  | mcp_tool_result
deriving DecidableEq, Repr

/-- The upstream content-block variants handled by `toAcpNotifications`. -/
inductive Chunk
  | text (text : String)
  | text_delta (text : String)
  | image (source : ImageSource)
  | thinking (thinking : String)
  | thinking_delta (thinking : String)
  | tool_use (kind : ToolUseKind) (id : String) (name : String) (input : ToolInput)
  | tool_result (kind : ToolResultKind) (tool_use_id : String) (is_error : Bool)
  | document
  | search_result
  | redacted_thinking
  | input_json_delta
  | citations_delta
  | signature_delta
  | container_upload
deriving DecidableEq, Repr

/-- The host-protocol `session/update` notification payloads emitted by the
translator. -/
inductive SessionUpdate
  | agent_message_chunk (content : ContentPayload)
  | user_message_chunk (content : ContentPayload)
  | agent_thought_chunk (content : ContentPayload)
  | plan (entries : List PlanEntry)
  | tool_call (toolCallId : String) (title : String) (rawInput : ToolInput)
      (status : String) (metaToolName : String)
  | tool_call_update (toolCallId : String) (status : String) (metaToolName : String)
deriving DecidableEq, Repr

def messageChunkFor (role : Role) (c : ContentPayload) : SessionUpdate :=
  match role with
  | .assistant => .agent_message_chunk c
  | .user => .user_message_chunk c

def imagePayload : ImageSource → ContentPayload
  | .base64 d mt => .image d mt none
  | .url u => .image "" "" (some u)

/-- Result of translating one content block: the cache afterwards, at most
one notification, and at most one error-log line. -/
structure ChunkResult where
  cache : ToolUseCache
  update : Option SessionUpdate
  log : Option String

/-- One iteration of the `for (const chunk of content)` switch in
`toAcpNotifications`. -/
def processChunk (role : Role) (cache : ToolUseCache) : Chunk → ChunkResult
  | .text s => ⟨cache, some (messageChunkFor role (.text s)), none⟩
  | .text_delta s => ⟨cache, some (messageChunkFor role (.text s)), none⟩
  | .image src => ⟨cache, some (messageChunkFor role (imagePayload src)), none⟩
  | .thinking s => ⟨cache, some (.agent_thought_chunk (.text s)), none⟩
  | .thinking_delta s => ⟨cache, some (.agent_thought_chunk (.text s)), none⟩
  | .tool_use k id name input =>
    let cache2 := cacheInsert cache id ⟨k, id, name, input⟩
    if name = "TodoWrite" then
      match input.todos with
      | some ts => ⟨cache2, some (.plan (planEntries ts)), none⟩
      | none => ⟨cache2, none, none⟩
    else
      ⟨cache2, some (.tool_call id (toolInfoTitle name input) input "pending" name), none⟩
  | .tool_result _ tuId isErr =>
    match cache tuId with
    | none =>
      ⟨cache, none,
       some ("[claude-code-acp] Got a tool result for tool use that was not tracked: " ++ tuId)⟩
    | some tu =>
      if tu.name = "TodoWrite" then ⟨cache, none, none⟩
      else ⟨cache, some (.tool_call_update tuId (if isErr then "failed" else "completed") tu.name),
            none⟩
  | .document => ⟨cache, none, none⟩
  | .search_result => ⟨cache, none, none⟩
  | .redacted_thinking => ⟨cache, none, none⟩
  | .input_json_delta => ⟨cache, none, none⟩
  | .citations_delta => ⟨cache, none, none⟩
  | .signature_delta => ⟨cache, none, none⟩
  | .container_upload => ⟨cache, none, none⟩

/-- The mutable `process.env`, as a finite partial map. -/
def Env := String → Option String

def envSet (e : Env) (k v : String) : Env := fun x => if x == k then some v else e x

structure SettingsPermissions where
  allow : Option (List String)
  deny : Option (List String)
deriving DecidableEq, Repr

structure ZAiConfig where
  enabled : Option Bool
  api_endpoint : Option String
  model_mapping : Option (List (String × String))
deriving DecidableEq, Repr

structure ManagedSettings where
  permissions : Option SettingsPermissions
  env : Option (List (String × String))
  z_ai : Option ZAiConfig
deriving DecidableEq, Repr

/-- `JSON.stringify` of the model-mapping record, modelled without escaping
(its exact text is irrelevant to the claims). -/
def jsonStringifyPairs (l : List (String × String)) : String :=
  "\x7b" ++ String.intercalate "," (l.map fun p => "\"" ++ p.1 ++ "\":\"" ++ p.2 ++ "\"") ++ "\x7d"

/-- The env loop of `applyEnvironmentSettings`: write each settings entry
only when the variable is currently `undefined`. -/
def applyEnvEntries (entries : List (String × String)) (e : Env) : Env :=
  entries.foldl (fun e kv => if e kv.1 = none then envSet e kv.1 kv.2 else e) e

/-- The z_ai block of `applyEnvironmentSettings`: when enabled, set the
base URL if unset, record the model mapping, and flag `Z_AI_ENABLED`. -/
def applyZAiSettings (z : Option ZAiConfig) (env1 : Env) : Env :=
  match z with
  | none => env1
  | some zc =>
    if zc.enabled = some true then
      let env2 :=
        match zc.api_endpoint with
        | some ep =>
          if ep ≠ "" ∧ env1 "ANTHROPIC_BASE_URL" = none then
            envSet env1 "ANTHROPIC_BASE_URL" ep
          else env1
        | none => env1
      let env3 :=
        match zc.model_mapping with
        | some mm => envSet env2 "Z_AI_MODEL_MAPPING_CONFIG" (jsonStringifyPairs mm)
        | none => env2
      envSet env3 "Z_AI_ENABLED" "true"
    else env1

def applyEnvironmentSettings (settings : ManagedSettings) (env0 : Env) : Env :=
  applyZAiSettings settings.z_ai
    (match settings.env with
     | none => env0
     | some entries => applyEnvEntries entries env0)

/-! ## Helper lemmas -/

theorem envSet_ne (e : Env) (k0 v0 k : String) (h : k ≠ k0) : envSet e k0 v0 k = e k := by
  simp [envSet, h]

theorem applyEnvEntries_preserved (entries : List (String × String)) (e : Env) (k v : String)
    (h : e k = some v) : applyEnvEntries entries e k = some v := by
  induction entries generalizing e with
  | nil => exact h
  | cons kv rest ih =>
    simp only [applyEnvEntries, List.foldl_cons]
    apply ih
    by_cases hk : e kv.1 = none
    · by_cases hkk : k = kv.1
      · rw [hkk] at h; rw [h] at hk; cases hk
      · rw [if_pos hk, envSet_ne e kv.1 kv.2 k hkk]; exact h
    · rw [if_neg hk]; exact h

theorem applyZAiSettings_preserved (z : Option ZAiConfig) (e : Env) (k v : String)
    (h : e k = some v) (hk1 : k ≠ "Z_AI_ENABLED") (hk2 : k ≠ "Z_AI_MODEL_MAPPING_CONFIG") :
    applyZAiSettings z e k = some v := by
  have hbase : ∀ ep : String,
      (if ep ≠ "" ∧ e "ANTHROPIC_BASE_URL" = none then
        envSet e "ANTHROPIC_BASE_URL" ep
      else e) k = some v := by
    intro ep
    by_cases hcond : ep ≠ "" ∧ e "ANTHROPIC_BASE_URL" = none
    · rw [if_pos hcond]
      by_cases hkb : k = "ANTHROPIC_BASE_URL"
      · rw [hkb] at h; rw [h] at hcond; exact absurd hcond.2 (by simp)
      · rw [envSet_ne _ _ _ _ hkb]; exact h
    · rw [if_neg hcond]; exact h
  rcases z with _ | ⟨en, ae, mm⟩
  · exact h
  · by_cases he : en = some true
    · rcases ae with _ | ep <;> rcases mm with _ | mmv <;>
        simp only [applyZAiSettings, he] <;>
          rw [if_pos trivial]
      · rw [envSet_ne _ _ _ _ hk1]; exact h
      · rw [envSet_ne _ _ _ _ hk1, envSet_ne _ _ _ _ hk2]; exact h
      · rw [envSet_ne _ _ _ _ hk1]; exact hbase ep
      · rw [envSet_ne _ _ _ _ hk1, envSet_ne _ _ _ _ hk2]; exact hbase ep
    · simp only [applyZAiSettings]
      rw [if_neg he]
      exact h

/-! ## Claim theorems -/

/-- C1: whenever no credential is configured (the `ANTHROPIC_AUTH_TOKEN`
variable is missing or blank, or `~/.claude.json.backup` exists without
`~/.claude.json`), `newSession` raises the distinct authorization-required
error and creates no session. -/
theorem newSession_authRequired (w : NewSessionWorld) (sid : String)
    (h : w.authToken = none ∨ (∃ t, w.authToken = some t ∧ jsTrim t = "") ∨
         (w.backupFileExists = true ∧ w.configFileExists = false)) :
    newSession w sid = .error .authRequired := by
  have hc : newSessionAuthCheck w = true := by
    unfold newSessionAuthCheck
    rcases h with h | ⟨t, ht, htr⟩ | ⟨hb, hcf⟩
    · rw [h]; rfl
    · rw [ht]; simp [htr]
    · rw [hb, hcf]; simp
  simp [newSession, hc]

/-- Witness for C1: a concrete world with no token at all. -/
theorem newSession_authRequired_witness :
    newSession ⟨none, false, false⟩ "session-1" = .error .authRequired :=
  newSession_authRequired ⟨none, false, false⟩ "session-1" (Or.inl rfl)

def todoInput : ToolInput := ⟨some [⟨"step one", "pending"⟩], ""⟩

/-- C3 counterexample: a TodoWrite tool-use block IS entered into the
Correlation Cache (the insertion happens before the TodoWrite special
case), refuting "never entered into the Correlation Cache"; the plan
notification is emitted as claimed. -/
theorem todoWrite_cached_counterexample :
    (processChunk .assistant emptyCache
        (.tool_use .tool_use "todo-1" "TodoWrite" todoInput)).cache "todo-1"
      = some ⟨.tool_use, "todo-1", "TodoWrite", todoInput⟩ ∧
    (processChunk .assistant emptyCache
        (.tool_use .tool_use "todo-1" "TodoWrite" todoInput)).update
      = some (.plan [⟨"step one", "pending"⟩]) :=
  ⟨rfl, rfl⟩

/-- C3 (amended): a TodoWrite tool-use block yields a plan notification
built from its `todos` input (and no notification when `todos` is absent),
never a generic tool-call notification; the invocation is nevertheless
recorded in the Correlation Cache. -/
theorem todoWrite_plan_notification (role : Role) (cache : ToolUseCache)
    (k : ToolUseKind) (id : String) (input : ToolInput) :
    ((processChunk role cache (.tool_use k id "TodoWrite" input)).cache id
       = some ⟨k, id, "TodoWrite", input⟩) ∧
    (∀ ts, input.todos = some ts →
       (processChunk role cache (.tool_use k id "TodoWrite" input)).update
         = some (.plan (planEntries ts))) ∧
    ((processChunk role cache (.tool_use k id "TodoWrite" input)).update = none ∨
     ∃ es, (processChunk role cache (.tool_use k id "TodoWrite" input)).update
         = some (.plan es)) := by
  obtain ⟨todos, raw⟩ := input
  refine ⟨?_, ?_, ?_⟩
  · cases todos <;> simp [processChunk, cacheInsert]
  · intro ts hts
    simp only at hts
    subst hts
    simp [processChunk]
  · cases todos <;> simp [processChunk]

/-- Witness for C3: a concrete TodoWrite invocation with one todo entry. -/
theorem todoWrite_plan_notification_witness :
    (processChunk .user emptyCache (.tool_use .mcp_tool_use "todo-2" "TodoWrite" todoInput)).update
      = some (.plan (planEntries [⟨"step one", "pending"⟩])) :=
  (todoWrite_plan_notification .user emptyCache .mcp_tool_use "todo-2" todoInput).2.1
    [⟨"step one", "pending"⟩] rfl

/-- C4: for an ordinary (non-ExitPlanMode) tool, bypass mode — or
accept-edits mode with an edit-class tool — auto-allows with no host round
trip; every other mode/tool combination performs the round trip, and any
rejected request is denied with the interrupt flag set. -/
theorem canUseTool_policy (editTools : List String) (mode : PermissionMode)
    (toolName : String) (resp : PermOutcome) (hname : toolName ≠ "ExitPlanMode") :
    ((mode = .bypassPermissions ∨ (mode = .acceptEdits ∧ toolName ∈ editTools)) →
       canUseTool editTools true mode toolName resp = ⟨false, .allow, mode⟩) ∧
    (¬(mode = .bypassPermissions ∨ (mode = .acceptEdits ∧ toolName ∈ editTools)) →
       (canUseTool editTools true mode toolName resp).askedHost = true ∧
       ((match resp with
         | .selected oid => oid ≠ "allow" ∧ oid ≠ "allow_always"
         | .cancelled => True) →
        (canUseTool editTools true mode toolName resp).decision
          = .deny "User refused permission to run tool" true)) := by
  constructor
  · intro hcond
    simp [canUseTool, hname, hcond]
  · intro hcond
    constructor
    · rcases resp with oid | _ <;> simp [canUseTool, hname, hcond] <;> split_ifs <;> rfl
    · intro hrej
      rcases resp with oid | _
      · obtain ⟨ha, hb⟩ := hrej
        simp [canUseTool, hname, hcond, ha, hb]
      · simp [canUseTool, hname, hcond]

/-- Witness for C4: accept-edits auto-allows an edit tool without asking;
default mode denies with interrupt on a rejected request. -/
theorem canUseTool_policy_witness :
    canUseTool ["Edit"] true .acceptEdits "Edit" (.selected "x") = ⟨false, .allow, .acceptEdits⟩ ∧
    (canUseTool ["Edit"] true .default "Bash" (.selected "reject")).decision
      = .deny "User refused permission to run tool" true :=
  ⟨(canUseTool_policy ["Edit"] .acceptEdits "Edit" (.selected "x") (by decide)).1
      (Or.inr ⟨rfl, by decide⟩),
   ((canUseTool_policy ["Edit"] .default "Bash" (.selected "reject") (by decide)).2
      (by decide)).2 (by decide)⟩

/-- C5: after switching to an engine profile that matches the
high-capability pattern and then to one that does not, the second
`setSessionModel` call clears the reasoning-token budget. -/
theorem setModel_clears_budget (envMax : Option Nat) (m1 m2 : String) (b0 : Option Nat)
    (h1 : isOpusModel m1 = true) (h2 : isOpusModel m2 = false) :
    setSessionModelBudget true envMax m2 (setSessionModelBudget true envMax m1 b0) = none := by
  simp [setSessionModelBudget, h2]

/-- Witness for C5: glm-4.7 (high capability) then glm-4.5-air. -/
theorem setModel_clears_budget_witness :
    setSessionModelBudget true none "glm-4.5-air"
      (setSessionModelBudget true none "glm-4.7" none) = none :=
  setModel_clears_budget none "glm-4.7" "glm-4.5-air" none (by decide) (by decide)

/-- C8: the exact prompt "What is a closure?" is classified as category
question with tier simple. -/
theorem analyzePrompt_scenarioA :
    (analyzePrompt "What is a closure?").taskType = .question ∧
    (analyzePrompt "What is a closure?").complexity = .simple := by
  decide

def c9settings : ManagedSettings :=
  ⟨none, some [("Z_AI_ENABLED", "x")], some ⟨some true, none, none⟩⟩

def c9env : Env := fun k => if k == "Z_AI_ENABLED" then some "0" else none

/-- C9 counterexample: `Z_AI_ENABLED` is listed in the env section and is
already set in the environment, yet `applyEnvironmentSettings` overwrites
it (the z_ai section writes it unconditionally), refuting the claim that
already-set variables are left unchanged. -/
theorem applyEnv_overwrites_counterexample :
    c9env "Z_AI_ENABLED" = some "0" ∧
    ("Z_AI_ENABLED", "x") ∈ c9settings.env.getD [] ∧
    applyEnvironmentSettings c9settings c9env "Z_AI_ENABLED" = some "true" :=
  ⟨rfl, by decide, rfl⟩

/-- C9 (amended): for every key listed in the env section that is already
set in the environment, `applyEnvironmentSettings` leaves its value
unchanged — except for the two variables the z_ai section may write
unconditionally, `Z_AI_ENABLED` and `Z_AI_MODEL_MAPPING_CONFIG`. -/
theorem applyEnvironmentSettings_preserves (settings : ManagedSettings) (env0 : Env)
    (k v : String) (hlisted : k ∈ (settings.env.getD []).map Prod.fst)
    (hset : env0 k = some v)
    (hk1 : k ≠ "Z_AI_ENABLED") (hk2 : k ≠ "Z_AI_MODEL_MAPPING_CONFIG") :
    applyEnvironmentSettings settings env0 k = some v := by
  unfold applyEnvironmentSettings
  apply applyZAiSettings_preserved _ _ _ _ _ hk1 hk2
  cases settings.env with
  | none => exact hset
  | some entries => exact applyEnvEntries_preserved entries env0 k v hset

/-- Witness for C9: a listed, already-set ordinary variable is preserved. -/
theorem applyEnvironmentSettings_preserves_witness :
    applyEnvironmentSettings ⟨none, some [("FOO", "bar")], none⟩
      (fun k => if k == "FOO" then some "old" else none) "FOO" = some "old" :=
  applyEnvironmentSettings_preserves ⟨none, some [("FOO", "bar")], none⟩
    (fun k => if k == "FOO" then some "old" else none) "FOO" "old"
    (by decide) rfl (by decide) (by decide)

/-- C10 counterexample: "toString" is not one of the six mapping-table
keys, yet mapModelToGlm does not return it unchanged — the lookup finds
the truthy toString member inherited from Object.prototype and the
or-expression returns that instead of the input. -/
theorem mapModelToGlm_proto_counterexample :
    "toString" ∉ mapModelToGlmKeys ∧
    mapModelToGlm "toString" = .inherited "toString" ∧
    mapModelToGlm "toString" ≠ .str "toString" := by
  refine ⟨by decide, by decide, by decide⟩

/-- C10 (amended): mapping each GLM identifier to its Claude name and back
returns the original identifier, and `mapModelToGlm` is the identity for
every model name that is neither in its mapping table nor a property name
inherited from Object.prototype (for inherited names such as "toString"
the lookup returns the inherited member instead of the input). -/
theorem modelMapping_roundTrip :
    mapModelToGlm (getClaudeModelFromGlm "glm-4.7") = .str "glm-4.7" ∧
    mapModelToGlm (getClaudeModelFromGlm "glm-4.5-air") = .str "glm-4.5-air" ∧
    ∀ s, s ∉ mapModelToGlmKeys → s ∉ objectPrototypeKeys → mapModelToGlm s = .str s := by
  refine ⟨by decide, by decide, ?_⟩
  intro s hs hp
  simp only [mapModelToGlmKeys, List.mem_cons, List.not_mem_nil, or_false, not_or] at hs
  obtain ⟨h1, h2, h3, h4, h5, h6⟩ := hs
  simp [mapModelToGlm, h1, h2, h3, h4, h5, h6, hp]

/-- Witness for C10: an unmapped, non-inherited model name passes through
unchanged. -/
theorem modelMapping_roundTrip_witness :
    mapModelToGlm "my-custom-model" = .str "my-custom-model" :=
  modelMapping_roundTrip.2.2 "my-custom-model" (by decide) (by decide)

def c6prompt : String := String.intercalate " " (List.replicate 100 "alpha")

/-- C6 counterexample: a one-line prompt of exactly 100 words with no code
blocks, no file paths, no keyword hits and default task category is
classified as tier simple, not medium — the `wordCount > 100` threshold is
strict, so exactly 100 words only adds one point. -/
theorem wordBoundary_counterexample :
    wordCountOf c6prompt = 100 ∧ lineCountOf c6prompt = 1 ∧
    countCodeBlocks c6prompt = 0 ∧ countFilePaths c6prompt = 0 ∧
    complexKeywordCountOf c6prompt = 0 ∧ simpleKeywordCountOf c6prompt = 0 ∧
    taskTypeOf c6prompt = .question ∧
    (analyzePrompt c6prompt).complexity ≠ .medium ∧
    (analyzePrompt c6prompt).complexity = .simple := by
  decide

/-- C6 (amended): a prompt of exactly 100 words contributing no other
complexity points (one line, no code blocks, no file paths, no complex or
simple keywords, default task category) is classified as tier simple, not
medium: its complexity score is 1, below the medium threshold of 3. -/
theorem wordCount100_simple (t : String)
    (hw : wordCountOf t = 100) (hl : lineCountOf t = 1)
    (hcb : countCodeBlocks t = 0) (hfp : countFilePaths t = 0)
    (hck : complexKeywordCountOf t = 0) (hsk : simpleKeywordCountOf t = 0)
    (ht : taskTypeOf t = .question) :
    (analyzePrompt t).complexity = .simple := by
  have hc : (analyzePrompt t).complexity = complexityOf t := rfl
  rw [hc]
  unfold complexityOf complexityScoreOf
  rw [hw, hl, hcb, hfp, hck, hsk, ht]
  decide

/-- Witness for C6 at the concrete 100-word prompt. -/
theorem wordCount100_simple_witness :
    (analyzePrompt c6prompt).complexity = .simple :=
  wordCount100_simple c6prompt (by decide) (by decide) (by decide) (by decide)
    (by decide) (by decide) (by decide)

/-! ## The task-category selection is a first-wins argmax (C7) -/

/-- Maximum keyword-hit count over a category list. -/
def maxScoreList (f : TaskType → Nat) (l : List TaskType) : Nat :=
  l.foldr (fun c n => max (f c) n) 0

/-- Position of a category in the fixed enumeration order. -/
def catIdx : TaskType → Nat
  | .question => 0
  | .explanation => 1
  | .code_generation => 2
  | .refactoring => 3
  | .debugging => 4
  | .architecture => 5
  | .review => 6

theorem maxScoreList_cons (f : TaskType → Nat) (c : TaskType) (rest : List TaskType) :
    maxScoreList f (c :: rest) = max (f c) (maxScoreList f rest) := rfl

theorem le_maxScoreList (f : TaskType → Nat) (l : List TaskType) :
    ∀ c ∈ l, f c ≤ maxScoreList f l := by
  induction l with
  | nil => intro c hc; cases hc
  | cons a rest ih =>
    intro c hc
    rw [maxScoreList_cons]
    rcases List.mem_cons.mp hc with rfl | hc2
    · exact Nat.le_max_left _ _
    · exact le_trans (ih c hc2) (Nat.le_max_right _ _)

theorem maxScoreList_le (f : TaskType → Nat) (l : List TaskType) (n : Nat)
    (h : ∀ c ∈ l, f c ≤ n) : maxScoreList f l ≤ n := by
  induction l with
  | nil => exact Nat.zero_le n
  | cons a rest ih =>
    rw [maxScoreList_cons]
    exact max_le (h a (List.mem_cons_self a rest))
      (ih (fun c hc => h c (List.mem_cons_of_mem a hc)))

theorem maxScoreList_attained (f : TaskType → Nat) (l : List TaskType) :
    maxScoreList f l = 0 ∨ ∃ c ∈ l, f c = maxScoreList f l := by
  induction l with
  | nil => exact Or.inl rfl
  | cons a rest ih =>
    rw [maxScoreList_cons]
    rcases Nat.le_total (maxScoreList f rest) (f a) with h | h
    · exact Or.inr ⟨a, List.mem_cons_self a rest, (max_eq_left h).symm⟩
    · rcases ih with h0 | ⟨c, hc, hfc⟩
      · rw [h0]
        exact Or.inr ⟨a, List.mem_cons_self a rest, (max_eq_left (Nat.zero_le _)).symm⟩
      · exact Or.inr ⟨c, List.mem_cons_of_mem a hc, by rw [max_eq_right h]; exact hfc⟩

theorem find?_of_exists (p : TaskType → Bool) :
    ∀ (l : List TaskType), (∃ c ∈ l, p c = true) → ∃ y, l.find? p = some y := by
  intro l h
  induction l with
  | nil => rcases h with ⟨c, hc, _⟩; cases hc
  | cons a rest ih =>
    by_cases hpa : p a = true
    · exact ⟨a, List.find?_cons_of_pos rest hpa⟩
    · rcases h with ⟨c, hc, hpc⟩
      rcases List.mem_cons.mp hc with rfl | hc2
      · exact absurd hpc hpa
      · rcases ih ⟨c, hc2, hpc⟩ with ⟨y, hy⟩
        exact ⟨y, by rw [List.find?_cons_of_neg rest hpa]; exact hy⟩

/-- The record-keeping selection loop returns the first category attaining
the maximal score (or the initial value when nothing beats it). -/
theorem pickTaskAux_eq (f : TaskType → Nat) :
    ∀ (l : List TaskType) (b : TaskType) (m : Nat),
      pickTaskAux f l b m =
        if m < maxScoreList f l then (l.find? fun c => f c == maxScoreList f l).getD b
        else b := by
  intro l
  induction l with
  | nil =>
    intro b m
    simp [pickTaskAux, maxScoreList]
  | cons a rest ih =>
    intro b m
    rw [maxScoreList_cons]
    simp only [pickTaskAux]
    by_cases h1 : f a > m
    · rw [if_pos h1, ih a (f a)]
      by_cases h2 : f a < maxScoreList f rest
      · have hmax : max (f a) (maxScoreList f rest) = maxScoreList f rest :=
          max_eq_right (le_of_lt h2)
        rw [if_pos h2, hmax, if_pos (lt_trans h1 h2)]
        have hpa : ¬ ((fun c => f c == maxScoreList f rest) a = true) := by
          simp [Nat.ne_of_lt h2]
        rw [List.find?_cons_of_neg rest hpa]
        rcases maxScoreList_attained f rest with h0 | ⟨c, hc, hfc⟩
        · omega
        · have hpc : (fun c2 => f c2 == maxScoreList f rest) c = true := by simp [hfc]
          rcases find?_of_exists (fun c2 => f c2 == maxScoreList f rest) rest ⟨c, hc, hpc⟩
            with ⟨y, hy⟩
          rw [hy]
          rfl
      · have hle : maxScoreList f rest ≤ f a := Nat.le_of_not_lt h2
        have hmax : max (f a) (maxScoreList f rest) = f a := max_eq_left hle
        rw [if_neg h2, hmax, if_pos h1]
        rw [List.find?_cons_of_pos rest (by simp)]
        rfl
    · rw [if_neg h1]
      have hfa : f a ≤ m := Nat.le_of_not_lt h1
      rw [ih b m]
      by_cases h2 : m < maxScoreList f rest
      · have hmax : max (f a) (maxScoreList f rest) = maxScoreList f rest :=
          max_eq_right (le_trans hfa (le_of_lt h2))
        rw [if_pos h2, hmax, if_pos h2]
        have hpa : ¬ ((fun c => f c == maxScoreList f rest) a = true) := by
          have hne : f a ≠ maxScoreList f rest := by omega
          simp [hne]
        rw [List.find?_cons_of_neg rest hpa]
      · rw [if_neg h2]
        have h2le : maxScoreList f rest ≤ m := Nat.le_of_not_lt h2
        have hnot : ¬ m < max (f a) (maxScoreList f rest) := by
          rw [Nat.not_lt]; exact max_le hfa h2le
        rw [if_neg hnot]

theorem mem_taskTypeOrder (c : TaskType) : c ∈ taskTypeOrder := by
  cases c <;> simp [taskTypeOrder]

theorem find?_taskTypeOrder_earlier {p : TaskType → Bool} {y : TaskType}
    (h : taskTypeOrder.find? p = some y) :
    ∀ c, catIdx c < catIdx y → p c = false := by
  simp only [taskTypeOrder, List.find?] at h
  repeat' split at h
  all_goals simp at h
  all_goals (subst h; intro c hlt; cases c <;> simp_all [catIdx])

/-- Spec of the selection loop: the chosen category attains the maximal
score, all enumeration-earlier categories score strictly less, and with no
hits anywhere the result is question. -/
theorem pickTask_spec (f : TaskType → Nat) :
    f (pickTask f) = maxScoreList f taskTypeOrder ∧
    (∀ c, catIdx c < catIdx (pickTask f) → f c < maxScoreList f taskTypeOrder) ∧
    ((∀ c, f c = 0) → pickTask f = .question) := by
  have hS := pickTaskAux_eq f taskTypeOrder .question 0
  by_cases hM : 0 < maxScoreList f taskTypeOrder
  · rcases maxScoreList_attained f taskTypeOrder with h0 | ⟨c0, hc0, hfc0⟩
    · omega
    · have hpc0 : (fun c => f c == maxScoreList f taskTypeOrder) c0 = true := by simp [hfc0]
      obtain ⟨y, hy⟩ :=
        find?_of_exists (fun c => f c == maxScoreList f taskTypeOrder) taskTypeOrder
          ⟨c0, hc0, hpc0⟩
      have hpick : pickTask f = y := by
        unfold pickTask
        rw [hS, if_pos hM, hy]
        rfl
      have hpy : f y = maxScoreList f taskTypeOrder := by
        have := List.find?_some hy
        simpa using this
      have hearly := find?_taskTypeOrder_earlier hy
      rw [hpick]
      refine ⟨hpy, ?_, ?_⟩
      · intro c hlt
        have hne : ¬ (f c = maxScoreList f taskTypeOrder) := by
          have := hearly c hlt
          simpa using this
        have hle : f c ≤ maxScoreList f taskTypeOrder :=
          le_maxScoreList f taskTypeOrder c (mem_taskTypeOrder c)
        omega
      · intro hz
        exfalso
        have hle0 : maxScoreList f taskTypeOrder ≤ 0 :=
          maxScoreList_le f taskTypeOrder 0 (fun c _ => le_of_eq (hz c))
        omega
  · have hpick : pickTask f = .question := by
      unfold pickTask
      rw [hS, if_neg hM]
    rw [hpick]
    refine ⟨?_, ?_, fun _ => rfl⟩
    · have := le_maxScoreList f taskTypeOrder .question (mem_taskTypeOrder .question)
      omega
    · intro c hlt
      simp [catIdx] at hlt

/-- C7: the analyzer task category attains the greatest per-category
keyword-hit count, every category earlier in the enumeration order scores
strictly less (so ties go to the first), and with no hits at all the
category is question. -/
theorem taskType_argmax (t : String) :
    catScore (jsToLower t) (analyzePrompt t).taskType
        = maxScoreList (catScore (jsToLower t)) taskTypeOrder ∧
    (∀ c, catIdx c < catIdx (analyzePrompt t).taskType →
        catScore (jsToLower t) c < maxScoreList (catScore (jsToLower t)) taskTypeOrder) ∧
    ((∀ c, catScore (jsToLower t) c = 0) → (analyzePrompt t).taskType = .question) :=
  pickTask_spec (catScore (jsToLower t))

/-- Witness for C7: the chosen category attains the maximum on a debugging
prompt, and a prompt with no keyword hits at all yields question. -/
theorem taskType_argmax_witness :
    catScore (jsToLower "fix this bug") (analyzePrompt "fix this bug").taskType
        = maxScoreList (catScore (jsToLower "fix this bug")) taskTypeOrder ∧
    (analyzePrompt "zzz").taskType = .question :=
  ⟨(taskType_argmax "fix this bug").1,
   (taskType_argmax "zzz").2.2 (by intro c; cases c <;> decide)⟩

end ZAcp
